import Mathlib

/-
Verification development for the rust-tree-map repository.

The embedding models the two engines byte-for-byte:
  * `tree_map.rs` (single-tree engine): the two files (node file, map file)
    are lists of bytes (`Fin 256`); every operation seeks absolutely and
    reads or writes slices exactly as the Rust code does.
  * `multi_file_tree_map.rs` (sharded engine): the master record, the shard
    roster (the `HashMap<u8, TreeMap>` is modelled as an association list in
    insertion order) and the dispatch/lazy-open logic.
  * `utils.rs`: `add_and_subtract` on the u64 counters, with u64 addition
    modelled as wrapping arithmetic modulo 2^64 (release-mode Rust), and the
    create/open file helpers via an explicit file-system snapshot.

Host I/O failures (which Rust wraps as FileIOError) are modelled only where
the code itself can produce them deterministically: a `read_exact` past the
end of a file fails; writes never fail.  Panics (`unwrap` / `expect`) are
modelled as errors of the surrounding operation.  The sharded layer reports
errors as strings obtained from the `Display` instance of `TreeFileError`,
mirroring the `Result<_, String>` signatures of `multi_file_tree_map.rs`.
-/

set_option maxRecDepth 100000

namespace RustTreeMap

/-- A byte, as stored in the binary files (Rust `u8`). -/
abbrev Byte := Fin 256

/-- Truncate a natural number to a byte (Rust `as u8`). -/
def mkByte (n : Nat) : Byte := ⟨n % 256, Nat.mod_lt _ (by omega)⟩

/-- Node ids (`pub type NodeId = usize`). -/
abbrev NodeId := Nat

/-- `const NODE_LENGTH: usize = 40` from `tree_map.rs`. -/
def NODE_LENGTH : Nat := 40

/-- `const MAP_LENGTH: usize = 10` from `tree_map.rs`. -/
def MAP_LENGTH : Nat := 10

/-- `const NODE_CHILD_META_LENGTH: usize = 16` from `tree_map.rs`. -/
def NODE_CHILD_META_LENGTH : Nat := 16

/-- `const NODE_CHILD_META_OFFSET: u64 = 24` from `tree_map.rs`. -/
def NODE_CHILD_META_OFFSET : Nat := 24

/-- `u64::MAX`, the all-ones sentinel used for "no parent". -/
def u64MAX : Nat := 2 ^ 64 - 1

/-- `enum TreeFileError` from `lib.rs`. -/
inductive TreeFileError where
  | NonExistingFiles
  | NonExistingNode
  | LogicError (msg : String)
  | FileIOError (msg : String)
deriving DecidableEq

/-- The `Display` implementation of `TreeFileError` from `lib.rs`; the
sharded layer reports its errors as these strings. -/
def TreeFileError.display : TreeFileError → String
  | .NonExistingFiles =>
      "NonExistingFiles: tried to open a non existing tree file in open mode MustExist"
  | .NonExistingNode => "NonExistingNode: node does not exists in tree"
  | .LogicError msg => "LogicError: " ++ msg
  | .FileIOError msg => "FileIOError: " ++ msg

/-- `enum OpenMode` from `lib.rs`. -/
inductive OpenMode where
  | TruncateCreate
  | OpenCreate
  | MustExist
deriving DecidableEq

/-- `struct NodeData` from `lib.rs`. -/
structure NodeData where
  node_id : NodeId
  node_pos : Nat
  parent : Option NodeId
  hits : Nat
  score : Nat
  first_child_pos : Nat
  n_children : Nat
  max_children : Nat
deriving DecidableEq

/-- `struct Iter` from `lib.rs`: a buffered child iterator. -/
structure Iter where
  key_vals : List (Nat × NodeId)
deriving DecidableEq

/-- The sequence an `Iter` produces: `next()` pops from the tail of
`key_vals`, so the items come out in reverse buffer order. -/
def Iter.yielded (it : Iter) : List (Nat × NodeId) := it.key_vals.reverse

/-- `struct ChildrenMeta` from `tree_map.rs`. -/
structure ChildrenMeta where
  first_child_pos : Nat
  n_children : Nat
  max_children : Nat
deriving DecidableEq

/-- `struct ChildMap` from `tree_map.rs`. -/
structure ChildMap where
  node_pos : Nat
  key : Nat
deriving DecidableEq

/-- `struct ChildrenMaps` from `tree_map.rs`. -/
structure ChildrenMaps where
  key_hit : Option ChildMap
  child_maps : List ChildMap
deriving DecidableEq

/-- `struct FileData` from `tree_map.rs`: the mutex-guarded state of one
single-tree store (both file contents plus the cached node count). -/
structure FileData where
  node_file : List Byte
  map_file : List Byte
  n_nodes : Nat
deriving DecidableEq

/-- Little-endian encoding of `n` into `w` bytes (`to_le_bytes`). -/
def toLeBytes : Nat → Nat → List Byte
  | _, 0 => []
  | n, w + 1 => mkByte n :: toLeBytes (n / 256) w

/-- Little-endian decoding (`from_le_bytes`). -/
def fromLeBytes : List Byte → Nat
  | [] => 0
  | b :: rest => b.val + 256 * fromLeBytes rest

/-- `seek(Start(pos))` followed by `read_exact` of a `len`-byte buffer:
succeeds exactly when the file holds `pos + len` bytes (a zero-length read
always succeeds); maps the EOF failure to `FileIOError` with the caller's
context message, as the Rust call sites do. -/
def readExact (file : List Byte) (pos len : Nat) (ctx : String) :
    Except TreeFileError (List Byte) :=
  if len = 0 then .ok []
  else if pos + len ≤ file.length then .ok ((file.drop pos).take len)
  else .error (.FileIOError ctx)

/-- `seek(Start(pos))` followed by `write_all(buf)`: overwrites in place,
extending the file when writing at or past the end (a gap is zero-filled;
the code only ever writes at positions up to the file length). -/
def writeAll (file : List Byte) (pos : Nat) (buf : List Byte) : List Byte :=
  file.take pos ++ List.replicate (pos - file.length) (0 : Byte) ++ buf ++
    file.drop (pos + buf.length)

/-- `add_and_subtract` from `utils.rs`.  A negative delta larger than the
value is a `LogicError`; otherwise the delta is applied.  The non-negative
branch is Rust `value += add as u64`, i.e. wrapping u64 addition. -/
def add_and_subtract (value : Nat) (add : Int) : Except TreeFileError Nat :=
  if add < 0 then
    let a := add.natAbs
    if a > value then
      .error (.LogicError "Would subtract below zero on unsigned value (u64)")
    else
      .ok (value - a)
  else
    .ok ((value + add.toNat) % 2 ^ 64)

/-- `pos_to_node_id` from `tree_map.rs`. -/
def pos_to_node_id (pos : Nat) : NodeId := pos / NODE_LENGTH

/-- `node_id_to_pos` from `tree_map.rs`. -/
def node_id_to_pos (node_id : NodeId) : Nat := node_id * NODE_LENGTH

/-- `node_to_buf` from `tree_map.rs`: the 40-byte node record
`|parent 8|hits 8|score 8|children pos 8|children_len 4|max_children 4|`. -/
def node_to_buf (parent_pos : Nat) (node_data : NodeData) : List Byte :=
  toLeBytes parent_pos 8 ++ toLeBytes node_data.hits 8 ++
    toLeBytes node_data.score 8 ++ toLeBytes node_data.first_child_pos 8 ++
    toLeBytes node_data.n_children 4 ++ toLeBytes node_data.max_children 4

/-- `children_to_buf` from `tree_map.rs`: a map block of `max_children`
ten-byte entries, filled with `0xFF` beyond the given children. -/
def children_to_buf (children : List ChildMap) (max_children : Nat) : List Byte :=
  (children.map fun c => toLeBytes c.node_pos 8 ++ toLeBytes c.key 2).flatten ++
    List.replicate (MAP_LENGTH * max_children - MAP_LENGTH * children.length)
      (255 : Byte)

/-- `node_children_to_buf` from `tree_map.rs`: the 16-byte children meta
`|children 8|children_len 4|max_children 4|`. -/
def node_children_to_buf (children_pos children_len children_max : Nat) :
    List Byte :=
  toLeBytes children_pos 8 ++ toLeBytes children_len 4 ++
    toLeBytes children_max 4

/-- `check_presence` from `tree_map.rs`. -/
def check_presence (fd : FileData) (node : NodeId) :
    Except TreeFileError Unit :=
  if node ≥ fd.n_nodes then .error .NonExistingNode else .ok ()

/-- `get_node` from `tree_map.rs`: read and decode the 40-byte record at
`node_pos`. -/
def get_node (fd : FileData) (node_pos : Nat) : Except TreeFileError NodeData := do
  let buf ← readExact fd.node_file node_pos NODE_LENGTH
    "while reading from node file"
  let parent_pos := fromLeBytes (buf.take 8)
  .ok { node_id := pos_to_node_id node_pos
        node_pos := node_pos
        parent := if parent_pos = u64MAX then none
                  else some (pos_to_node_id parent_pos)
        hits := fromLeBytes ((buf.drop 8).take 8)
        score := fromLeBytes ((buf.drop 16).take 8)
        first_child_pos := fromLeBytes ((buf.drop 24).take 8)
        n_children := fromLeBytes ((buf.drop 32).take 4)
        max_children := fromLeBytes ((buf.drop 36).take 4) }

/-- `add_node` from `tree_map.rs`: append a fresh record (no children) at the
end of the node file; returns the record's byte position. -/
def add_node (fd : FileData) (parent_pos hits score max_children : Nat) :
    Nat × FileData :=
  let node_pos := fd.node_file.length
  let node_data : NodeData :=
    { node_id := 0, node_pos := node_pos, parent := none, hits := hits
      score := score, first_child_pos := 0, n_children := 0
      max_children := max_children }
  let buf := node_to_buf parent_pos node_data
  (node_pos,
   { fd with node_file := writeAll fd.node_file node_pos buf
             n_nodes := fd.n_nodes + 1 })

/-- `update_node` from `tree_map.rs`: rewrite the record at
`node_data.node_pos` in place. -/
def update_node (fd : FileData) (node_data : NodeData) : FileData :=
  let parent_pos := match node_data.parent with
    | some p => node_id_to_pos p
    | none => u64MAX
  { fd with node_file :=
      writeAll fd.node_file node_data.node_pos (node_to_buf parent_pos node_data) }

/-- `expected_node_pos` from `tree_map.rs`: `seek(End(0))` on the node file. -/
def expected_node_pos (fd : FileData) : Nat := fd.node_file.length

/-- `get_node_child_meta` from `tree_map.rs`. -/
def get_node_child_meta (fd : FileData) (node_pos : Nat) :
    Except TreeFileError ChildrenMeta := do
  let buf ← readExact fd.node_file (node_pos + NODE_CHILD_META_OFFSET)
    NODE_CHILD_META_LENGTH "while reading from node file"
  .ok { first_child_pos := fromLeBytes (buf.take 8)
        n_children := fromLeBytes ((buf.drop 8).take 4)
        max_children := fromLeBytes ((buf.drop 12).take 4) }

/-- `update_node_child_meta` from `tree_map.rs`. -/
def update_node_child_meta (fd : FileData) (node_pos : Nat)
    (children_meta : ChildrenMeta) : FileData :=
  let buf := node_children_to_buf children_meta.first_child_pos
    children_meta.n_children children_meta.max_children
  let f := writeAll fd.node_file (node_pos + NODE_CHILD_META_OFFSET) buf
  { fd with node_file := f }

/-- One ten-byte entry `|node 8|key 2|` decoded from a map-block buffer at
index `i` (the body of the scan loops in `tree_map.rs`). -/
def decode_child_entry (buf : List Byte) (i : Nat) : ChildMap :=
  { node_pos := fromLeBytes ((buf.drop (MAP_LENGTH * i)).take 8)
    key := fromLeBytes ((buf.drop (MAP_LENGTH * i + 8)).take 2) }

/-- The first `n` entries of a map-block buffer. -/
def decode_child_entries (buf : List Byte) (n : Nat) : List ChildMap :=
  (List.range n).map (decode_child_entry buf)

/-- `get_children_maps` from `tree_map.rs`: read the whole map block, scan
the first `n_children` entries; `key_hit` is overwritten on every match, so
it is the last matching entry. -/
def get_children_maps (fd : FileData) (key : Nat)
    (children_meta : ChildrenMeta) : Except TreeFileError ChildrenMaps := do
  let buf ← readExact fd.map_file children_meta.first_child_pos
    (MAP_LENGTH * children_meta.max_children) "while reading from map file"
  let entries := decode_child_entries buf children_meta.n_children
  .ok { key_hit := entries.foldl
          (fun acc c => if c.key = key then some c else acc) none
        child_maps := entries }

/-- `get_children_vec` from `tree_map.rs`: read the whole map block and
return the first `n_children` `(key, pos / 40)` pairs in entry order. -/
def get_children_vec (fd : FileData) (children_meta : ChildrenMeta) :
    Except TreeFileError (List (Nat × NodeId)) := do
  let buf ← readExact fd.map_file children_meta.first_child_pos
    (MAP_LENGTH * children_meta.max_children) "while reading from map file"
  .ok ((List.range children_meta.n_children).map fun i =>
    ((decode_child_entry buf i).key,
     pos_to_node_id (decode_child_entry buf i).node_pos))

/-- `update_children_maps` from `tree_map.rs`: rewrite the block in place. -/
def update_children_maps (fd : FileData) (children_maps : List ChildMap)
    (children_meta : ChildrenMeta) : FileData :=
  let buf := children_to_buf children_maps children_meta.max_children
  let f := writeAll fd.map_file children_meta.first_child_pos buf
  { fd with map_file := f }

/-- `add_child_map` from `tree_map.rs`: append a fresh one-entry block of
capacity `max_children` at the end of the map file. -/
def add_child_map (fd : FileData) (child_map : ChildMap) (max_children : Nat) :
    Nat × FileData :=
  let children_pos := fd.map_file.length
  let f := writeAll fd.map_file children_pos (children_to_buf [child_map] max_children)
  (children_pos, { fd with map_file := f })

/-- `new_children_child_mappings` from `tree_map.rs`: first child of a
parent; requires `max_children > 0`, allocates the block, patches the
parent's children meta. -/
def new_children_child_mappings (fd : FileData)
    (parent_pos key child_pos : Nat) (children_meta : ChildrenMeta) :
    Except TreeFileError FileData :=
  if children_meta.max_children = 0 then
    .error (.LogicError "trying to add more children than allowed for parent")
  else
    let res := add_child_map fd { node_pos := child_pos, key := key }
      children_meta.max_children
    .ok (update_node_child_meta res.2 parent_pos
      { children_meta with n_children := 1, first_child_pos := res.1 })

/-- `update_children_child_mappings` from `tree_map.rs`: additional child of
a parent; rejects a duplicate key and block overflow, otherwise rewrites the
block with the entry appended and patches `n_children`. -/
def update_children_child_mappings (fd : FileData)
    (parent_pos key child_pos : Nat) (children_meta : ChildrenMeta) :
    Except TreeFileError FileData := do
  let res ← get_children_maps fd key children_meta
  if res.key_hit.isSome then
    .error (.LogicError
      "key already present, would turn existing child node to a ghost node")
  else
    let child_maps := res.child_maps ++ [{ node_pos := child_pos, key := key }]
    if child_maps.length > children_meta.max_children then
      .error (.LogicError "trying to add more children than allowed for parent")
    else
      let fd1 := update_children_maps fd child_maps children_meta
      if child_maps.length ≠ children_meta.n_children then
        .ok (update_node_child_meta fd1 parent_pos
          { children_meta with n_children := child_maps.length })
      else
        .ok fd1

/-- `TreeMap::get_top`. -/
def TreeMap.get_top : NodeId := 0

/-- `TreeMap::len`. -/
def TreeMap.len (fd : FileData) : Nat := fd.n_nodes

/-- `TreeMap::get_node`. -/
def TreeMap.get_node (fd : FileData) (node : NodeId) :
    Except TreeFileError NodeData := do
  check_presence fd node
  RustTreeMap.get_node fd (node_id_to_pos node)

/-- `TreeMap::add_child`: errors leave the state exactly as mutated so far
(in this model no write precedes any error). -/
def TreeMap.add_child (fd : FileData) (node : NodeId)
    (key hits score max_children : Nat) :
    Except TreeFileError NodeId × FileData :=
  match check_presence fd node with
  | .error e => (.error e, fd)
  | .ok _ =>
    let parent_pos := node_id_to_pos node
    let child_pos := expected_node_pos fd
    match get_node_child_meta fd parent_pos with
    | .error e => (.error e, fd)
    | .ok children_meta =>
      let step :=
        if children_meta.n_children = 0 then
          new_children_child_mappings fd parent_pos key child_pos children_meta
        else
          update_children_child_mappings fd parent_pos key child_pos children_meta
      match step with
      | .error e => (.error e, fd)
      | .ok fd1 =>
        let res := add_node fd1 parent_pos hits score max_children
        (.ok (pos_to_node_id child_pos), res.2)

/-- `TreeMap::get_child`. -/
def TreeMap.get_child (fd : FileData) (node : NodeId) (key : Nat) :
    Except TreeFileError (Option NodeData) := do
  check_presence fd node
  let parent_pos := node_id_to_pos node
  let children_meta ← get_node_child_meta fd parent_pos
  if children_meta.n_children = 0 then
    .ok none
  else do
    let res ← get_children_maps fd key children_meta
    match res.key_hit with
    | some c => do
        let nd ← RustTreeMap.get_node fd c.node_pos
        .ok (some nd)
    | none => .ok none

/-- `TreeMap::get_parent`. -/
def TreeMap.get_parent (fd : FileData) (node : NodeId) :
    Except TreeFileError (Option NodeData) := do
  check_presence fd node
  let node_data ← RustTreeMap.get_node fd (node_id_to_pos node)
  match node_data.parent with
  | some node_id => do
      let p ← RustTreeMap.get_node fd (node_id_to_pos node_id)
      .ok (some p)
  | none => .ok none

/-- `TreeMap::update_node_add`: read the record, offset both counters via
`add_and_subtract`, rewrite in place; an error leaves the files untouched. -/
def TreeMap.update_node_add (fd : FileData) (node : NodeId)
    (hits score : Int) : Except TreeFileError Unit × FileData :=
  match check_presence fd node with
  | .error e => (.error e, fd)
  | .ok _ =>
    match RustTreeMap.get_node fd (node_id_to_pos node) with
    | .error e => (.error e, fd)
    | .ok node_data =>
      match add_and_subtract node_data.hits hits with
      | .error e => (.error e, fd)
      | .ok h =>
        match add_and_subtract node_data.score score with
        | .error e => (.error e, fd)
        | .ok s =>
          (.ok (), update_node fd { node_data with hits := h, score := s })

/-- `TreeMap::get_child_iter`: an absent node gives the empty iterator; the
two `unwrap()` calls on the meta read and the block read turn their
failures into panics, modelled as an error result. -/
def TreeMap.get_child_iter (fd : FileData) (node : NodeId) :
    Except TreeFileError Iter :=
  match check_presence fd node with
  | .error _ => .ok { key_vals := [] }
  | .ok _ => do
    let children_meta ← get_node_child_meta fd (node_id_to_pos node)
    let key_vals ← get_children_vec fd children_meta
    .ok { key_vals := key_vals }

/-- The on-disk pair of files a `TreeMap` opens (node file, map file);
`none` means the file does not exist.  The selector prefix of shard file
names is accounted for by the `ShardFS` map below. -/
structure TreeFS where
  node_file : Option (List Byte)
  map_file : Option (List Byte)

/-- `TreeMap::new`: choose create (truncating) or open per `OpenMode` —
`exists` is true only when BOTH files are present — then recover the node
count from the file length and append the top node to an empty store. -/
def TreeMap.new (fs : TreeFS) (max_top_children : Nat) (open_mode : OpenMode) :
    Except TreeFileError FileData :=
  let ex := fs.node_file.isSome && fs.map_file.isSome
  let files : Except TreeFileError (List Byte × List Byte) :=
    match open_mode with
    | .TruncateCreate => .ok ([], [])
    | .OpenCreate =>
        if ex then .ok (fs.node_file.getD [], fs.map_file.getD [])
        else .ok ([], [])
    | .MustExist =>
        if ex then .ok (fs.node_file.getD [], fs.map_file.getD [])
        else .error .NonExistingFiles
  match files with
  | .error e => .error e
  | .ok (node_file, map_file) =>
    let fd : FileData :=
      { node_file := node_file, map_file := map_file
        n_nodes := node_file.length / NODE_LENGTH }
    if fd.n_nodes = 0 then
      .ok (add_node fd u64MAX 0 0 max_top_children).2
    else
      .ok fd

/-- `const MASTER_MIN_LENGTH: usize = 24` from `multi_file_tree_map.rs`. -/
def MASTER_MIN_LENGTH : Nat := 24

/-- `struct MasterData` from `multi_file_tree_map.rs`: the mutex-guarded
state of a sharded store.  The `HashMap<u8, TreeMap>` is an association
list in insertion order (`trees`); the directory path is immaterial here. -/
structure MasterData where
  master_file : List Byte
  trees : List (Nat × FileData)
  max_top_children : Nat
  hits : Nat
  score : Nat
deriving DecidableEq

/-- The shard files on disk, per selector byte (the `NNN.` prefixed pair of
tree files). -/
abbrev ShardFS := Nat → TreeFS

/-- `HashMap::insert`: overwrite the entry when the selector is present,
append it otherwise. -/
def trees_insert : List (Nat × FileData) → Nat → FileData → List (Nat × FileData)
  | [], sel, fd => [(sel, fd)]
  | (k, v) :: rest, sel, fd =>
      if k = sel then (k, fd) :: rest else (k, v) :: trees_insert rest sel fd

/-- `selector_from_selector_node` from `multi_file_tree_map.rs`:
`node & 0b11111111`. -/
def selector_from_selector_node (node : NodeId) : Nat := node % 256

/-- `selector_node_from_node` from `multi_file_tree_map.rs`:
`(node << 8) + selector`. -/
def selector_node_from_node (node : NodeId) (selector : Nat) : NodeId :=
  node * 256 + selector

/-- `node_from_selector_node` from `multi_file_tree_map.rs`: `node >> 8`. -/
def node_from_selector_node (node : NodeId) : NodeId := node / 256

/-- `save_master_data` from `multi_file_tree_map.rs`: serialize
`|max_top 4|n_trees 4|hits 8|score 8|selector bytes|` and write it from
position 0 (without truncating a longer file). -/
def save_master_data (m : MasterData) : MasterData :=
  let buf := toLeBytes m.max_top_children 4 ++ toLeBytes m.trees.length 4 ++
    toLeBytes m.hits 8 ++ toLeBytes m.score 8 ++
    m.trees.map (fun p => mkByte p.1)
  { m with master_file := writeAll m.master_file 0 buf }

/-- `add_tree` from `multi_file_tree_map.rs`: reject a full roster, open or
create the shard with `TreeMap::new(path, 0, open_mode, Some(selector))`
(note the literal `0` passed as the new tree's `max_top_children`), insert
it and rewrite the master record. -/
def add_tree (sfs : ShardFS) (m : MasterData) (tree_selector : Nat)
    (open_mode : OpenMode) : Except String MasterData :=
  if m.trees.length ≥ m.max_top_children then
    .error "Error, trying to add more children than allowed for parent"
  else
    match TreeMap.new (sfs tree_selector) 0 open_mode with
    | .error e => .error e.display
    | .ok fd =>
        .ok (save_master_data
          { m with trees := trees_insert m.trees tree_selector fd })

/-- `manage_trees_and_execute` from `multi_file_tree_map.rs`: run `func` on
the selected shard, lazily adding the shard first when it is not in the
roster (the Rust `loop` runs at most twice, since `add_tree` inserts the
selector it was asked for; the dead third iteration is an unreachable
error here). -/
def manage_trees_and_execute {α : Type} (sfs : ShardFS) (m : MasterData)
    (tree_selector : Nat) (open_mode : OpenMode)
    (func : FileData → Except String α × FileData) :
    Except String α × MasterData :=
  match List.lookup tree_selector m.trees with
  | some fd =>
      let r := func fd
      (r.1, { m with trees := trees_insert m.trees tree_selector r.2 })
  | none =>
    match add_tree sfs m tree_selector open_mode with
    | .error e => (.error e, m)
    | .ok m1 =>
      match List.lookup tree_selector m1.trees with
      | some fd =>
          let r := func fd
          (r.1, { m1 with trees := trees_insert m1.trees tree_selector r.2 })
      | none => (.error "unreachable: selector was just inserted", m1)

/-- `MultiFileTreeMap::get_top`. -/
def MultiFileTreeMap.get_top : NodeId := 0

/-- `MultiFileTreeMap::get_selector`: splitter on the key for a child of the
composite top, low byte of the node id otherwise; asking about the top
without a key is an error.  The splitter has codomain `u8` in Rust, hence
the `% 256`. -/
def get_selector (splitter : Nat → Nat) (node : NodeId) (key : Option Nat) :
    Except String Nat :=
  match key with
  | some k => if node = MultiFileTreeMap.get_top then .ok (splitter k % 256)
              else .ok (selector_from_selector_node node)
  | none =>
      if node ≠ MultiFileTreeMap.get_top then
        .ok (selector_from_selector_node node)
      else
        .error "Top node given, but no key to select files from"

/-- `MultiFileTreeMap::len`: `trees.values().map(|t| t.len()).sum() + 1`. -/
def MultiFileTreeMap.len (m : MasterData) : Nat :=
  (m.trees.map (fun p => TreeMap.len p.2)).sum + 1

/-- `MultiFileTreeMap::get_top_node_data`: the synthesized composite top
record, carrying the master record's accumulators and roster size. -/
def MultiFileTreeMap.get_top_node_data (m : MasterData) : NodeData :=
  { node_id := MultiFileTreeMap.get_top, node_pos := 0, parent := none
    hits := m.hits, score := m.score, first_child_pos := 0
    n_children := m.trees.length, max_children := m.max_top_children }

/-- `MultiFileTreeMap::get_node`. -/
def MultiFileTreeMap.get_node (splitter : Nat → Nat) (sfs : ShardFS)
    (m : MasterData) (node : NodeId) :
    Except String NodeData × MasterData :=
  if node = MultiFileTreeMap.get_top then
    (.ok (MultiFileTreeMap.get_top_node_data m), m)
  else
    match get_selector splitter node none with
    | .error e => (.error e, m)
    | .ok tree_selector =>
      manage_trees_and_execute sfs m tree_selector .MustExist (fun t =>
        (match TreeMap.get_node t (node_from_selector_node node) with
         | .ok n => .ok { n with
             node_id := selector_node_from_node n.node_id tree_selector }
         | .error e => .error e.display, t))

/-- `MultiFileTreeMap::add_child`: dispatch on the splitter (top parent) or
the id's low byte, lazily creating the shard with the store's own open
mode, and re-encode the returned local id. -/
def MultiFileTreeMap.add_child (splitter : Nat → Nat) (open_mode : OpenMode)
    (sfs : ShardFS) (m : MasterData) (node : NodeId)
    (key hits score max_children : Nat) :
    Except String NodeId × MasterData :=
  match get_selector splitter node (some key) with
  | .error e => (.error e, m)
  | .ok tree_selector =>
    manage_trees_and_execute sfs m tree_selector open_mode (fun t =>
      let r := TreeMap.add_child t (node_from_selector_node node) key hits
        score max_children
      (match r.1 with
       | .ok n => .ok (selector_node_from_node n tree_selector)
       | .error e => .error e.display, r.2))

/-- `MultiFileTreeMap::get_child`: dispatch with `MustExist`, re-encode the
returned record's id. -/
def MultiFileTreeMap.get_child (splitter : Nat → Nat) (sfs : ShardFS)
    (m : MasterData) (node : NodeId) (key : Nat) :
    Except String (Option NodeData) × MasterData :=
  match get_selector splitter node (some key) with
  | .error e => (.error e, m)
  | .ok tree_selector =>
    manage_trees_and_execute sfs m tree_selector .MustExist (fun t =>
      (match TreeMap.get_child t (node_from_selector_node node) key with
       | .ok (some nd) => .ok (some { nd with
           node_id := selector_node_from_node nd.node_id tree_selector })
       | .ok none => .ok none
       | .error e => .error e.display, t))

/-- `MultiFileTreeMap::get_parent`: the composite top has no parent;
otherwise dispatch with `MustExist` and re-encode the returned record's
id with this shard's selector. -/
def MultiFileTreeMap.get_parent (splitter : Nat → Nat) (sfs : ShardFS)
    (m : MasterData) (node : NodeId) :
    Except String (Option NodeData) × MasterData :=
  if node = MultiFileTreeMap.get_top then
    (.ok none, m)
  else
    match get_selector splitter node none with
    | .error e => (.error e, m)
    | .ok tree_selector =>
      manage_trees_and_execute sfs m tree_selector .MustExist (fun t =>
        (match TreeMap.get_parent t (node_from_selector_node node) with
         | .ok (some nd) => .ok (some { nd with
             node_id := selector_node_from_node nd.node_id tree_selector })
         | .ok none => .ok none
         | .error e => .error e.display, t))

/-- `MultiFileTreeMap::update_node_add`: the composite top updates the
master accumulators; otherwise dispatch with `MustExist`. -/
def MultiFileTreeMap.update_node_add (splitter : Nat → Nat) (sfs : ShardFS)
    (m : MasterData) (node : NodeId) (hits score : Int) :
    Except String Unit × MasterData :=
  if node = MultiFileTreeMap.get_top then
    match add_and_subtract m.hits hits with
    | .error e => (.error e.display, m)
    | .ok h =>
      match add_and_subtract m.score score with
      | .error e => (.error e.display, { m with hits := h })
      | .ok s => (.ok (), save_master_data { m with hits := h, score := s })
  else
    match get_selector splitter node none with
    | .error e => (.error e, m)
    | .ok tree_selector =>
      manage_trees_and_execute sfs m tree_selector .MustExist (fun t =>
        let r := TreeMap.update_node_add t (node_from_selector_node node)
          hits score
        (match r.1 with
         | .ok u => .ok u
         | .error e => .error e.display, r.2))

/-- The `node == top` branch of `MultiFileTreeMap::get_child_iter`: iterate
every shard's top-level iterator in roster order, pushing each yielded pair
onto the accumulating buffer; a panic inside a shard iterator aborts the
whole call. -/
def push_shard_iters (trees : List (Nat × FileData))
    (acc : List (Nat × NodeId)) : Except String (List (Nat × NodeId)) :=
  match trees with
  | [] => .ok acc
  | (_, t) :: rest =>
    match TreeMap.get_child_iter t TreeMap.get_top with
    | .error e => .error e.display
    | .ok it => push_shard_iters rest (acc ++ it.yielded)

/-- `MultiFileTreeMap::get_child_iter`: concatenate the shard top iterators
for the composite top, else dispatch with `MustExist`; both the dispatch
`expect` and the panics inside `TreeMap::get_child_iter` are modelled as
errors.  Note that the yielded local ids are NOT re-encoded. -/
def MultiFileTreeMap.get_child_iter (splitter : Nat → Nat) (sfs : ShardFS)
    (m : MasterData) (node : NodeId) : Except String Iter × MasterData :=
  if node = MultiFileTreeMap.get_top then
    match push_shard_iters m.trees [] with
    | .error e => (.error e, m)
    | .ok key_vals => (.ok { key_vals := key_vals }, m)
  else
    match get_selector splitter node none with
    | .error e => (.error e, m)
    | .ok tree_selector =>
      manage_trees_and_execute sfs m tree_selector .MustExist (fun t =>
        (match TreeMap.get_child_iter t (node_from_selector_node node) with
         | .ok it => .ok it
         | .error e => .error e.display, t))

/-- The `for offset in 0..n_children` loop of `load_master_data`: read each
selector byte from the master buffer and open that shard with
`TreeMap::new(path, 0, open_mode, Some(selector))`. -/
def load_trees (sfs : ShardFS) (open_mode : OpenMode) (buf : List Byte)
    (m : MasterData) : List Nat → Except String MasterData
  | [] => .ok m
  | offset :: rest =>
    let tree_selector := (buf.getD (MASTER_MIN_LENGTH + offset) 0).val
    match TreeMap.new (sfs tree_selector) 0 open_mode with
    | .error e => .error e.display
    | .ok fd =>
        load_trees sfs open_mode buf
          { m with trees := trees_insert m.trees tree_selector fd } rest

/-- `load_master_data` from `multi_file_tree_map.rs`: read the whole master
file; `MustExist` demands at least 24 bytes; when at least 24 bytes are
present, parse the header, check the selector list length, and open every
listed shard. -/
def load_master_data (sfs : ShardFS) (m : MasterData) (open_mode : OpenMode) :
    Except String MasterData :=
  let buf := m.master_file
  if open_mode = .MustExist ∧ buf.length < MASTER_MIN_LENGTH then
    .error "Error, no master data in master file"
  else if buf.length ≥ MASTER_MIN_LENGTH then
    let max_top_children := fromLeBytes (buf.take 4)
    let n_children := fromLeBytes ((buf.drop 4).take 4)
    let hits := fromLeBytes ((buf.drop 8).take 8)
    let score := fromLeBytes ((buf.drop 16).take 8)
    if buf.length < n_children + MASTER_MIN_LENGTH then
      .error "Error, to few trees in master file"
    else
      load_trees sfs open_mode buf
        { m with max_top_children := max_top_children, hits := hits
                 score := score }
        (List.range n_children)
  else
    .ok m

/-- `MultiFileTreeMap::new`: open or create the master file per the open
mode (`master_fs` is its on-disk contents, `none` when absent), load the
master data and the listed shards, then rewrite the master record. -/
def MultiFileTreeMap.new (sfs : ShardFS) (master_fs : Option (List Byte))
    (max_top_children : Nat) (open_mode : OpenMode) :
    Except String MasterData :=
  let master : Except String (List Byte) :=
    match open_mode with
    | .TruncateCreate => .ok []
    | .OpenCreate => .ok (master_fs.getD [])
    | .MustExist =>
        match master_fs with
        | some b => .ok b
        | none => .error "Master file missing"
  match master with
  | .error e => .error e
  | .ok master_file =>
    let m : MasterData :=
      { master_file := master_file, trees := []
        max_top_children := max_top_children, hits := 0, score := 0 }
    match load_master_data sfs m open_mode with
    | .error e => .error e
    | .ok m1 => .ok (save_master_data m1)

deriving instance DecidableEq for Except

/-- An empty directory: no shard files exist for any selector. -/
def sfsEmpty : ShardFS := fun _ => ⟨none, none⟩

/-- The splitter used by the repository's own tests:
`|k| (k >> 8) as u8`. -/
def splitterHi : Nat → Nat := fun k => k / 256

/-- The fallback state used when a construction step cannot fail anyway. -/
def emptyFileData : FileData := { node_file := [], map_file := [], n_nodes := 0 }

/-- The fallback master state used when a construction step cannot fail
anyway. -/
def emptyMasterData : MasterData :=
  { master_file := [], trees := [], max_top_children := 0, hits := 0, score := 0 }

/-- A freshly created sharded store with `max_top_shards = 2` (scenario 1 of
the spec and the repository test `can_add_children`). -/
def fresh_sharded_store : MasterData :=
  match MultiFileTreeMap.new sfsEmpty none 2 .TruncateCreate with
  | .ok m => m
  | .error _ => emptyMasterData

/-- A single-tree store with top capacity 2 holding one child with key
`0x0A01` (hits 100, score 1000), built through the public API. -/
def shard_fd : FileData :=
  match TreeMap.new ⟨none, none⟩ 2 .TruncateCreate with
  | .ok fd0 => (TreeMap.add_child fd0 TreeMap.get_top 2561 100 1000 2).2
  | .error _ => emptyFileData

/-- A directory holding `shard_fd`s files under shard selector 10 and
nothing else. -/
def shard_sfs : ShardFS := fun sel =>
  if sel = 10 then ⟨some shard_fd.node_file, some shard_fd.map_file⟩
  else ⟨none, none⟩

/-- A master file for a sharded store with `max_top_shards = 2`, one shard
(selector 10), and top accumulators `hits = 50, score = 500`. -/
def master_bytes : List Byte :=
  toLeBytes 2 4 ++ toLeBytes 1 4 ++ toLeBytes 50 8 ++ toLeBytes 500 8 ++
    [mkByte 10]

/-- The sharded store reopened (with `OpenCreate`) from `master_bytes` and
the shard-10 files: roster `[(10, shard_fd)]`, top accumulators 50/500. -/
def one_shard_store : MasterData :=
  match MultiFileTreeMap.new shard_sfs (some master_bytes) 2 .OpenCreate with
  | .ok m => m
  | .error _ => emptyMasterData

/-- A freshly created single-tree store with top capacity 3 (scenario 3 of
the spec). -/
def fresh_tree : FileData :=
  match TreeMap.new ⟨none, none⟩ 3 .TruncateCreate with
  | .ok fd => fd
  | .error _ => emptyFileData

/-- A single-tree store whose node 1 was inserted with `hits = u64::MAX`
(built through the public API), for exercising the wrap point of
`update_node_add`. -/
def max_hits_tree : FileData :=
  match TreeMap.new ⟨none, none⟩ 2 .TruncateCreate with
  | .ok fd0 => (TreeMap.add_child fd0 TreeMap.get_top 10 (2 ^ 64 - 1) 0 2).2
  | .error _ => emptyFileData

/-- The children meta of the top node of `shard_fd` (one child, capacity
2, block at offset 0). -/
def shard_top_meta : ChildrenMeta :=
  { first_child_pos := 0, n_children := 1, max_children := 2 }

/-- Spec-side description of a node's children ("the first `n_children`
`(key, pos/40)` pairs of its map block"), read directly from the map file
at the offsets the on-disk layout prescribes. -/
def child_pairs_spec (fd : FileData) (children_meta : ChildrenMeta) :
    List (Nat × NodeId) :=
  (List.range children_meta.n_children).map fun i =>
    (fromLeBytes ((fd.map_file.drop
        (children_meta.first_child_pos + MAP_LENGTH * i + 8)).take 2),
     fromLeBytes ((fd.map_file.drop
        (children_meta.first_child_pos + MAP_LENGTH * i)).take 8) / NODE_LENGTH)

/-- Summing shard node counts: when every shard holds at least its own top
node, the sum of the counts is the sum of the counts-without-top plus the
number of shards. -/
theorem sum_n_nodes_eq (l : List (Nat × FileData))
    (h : ∀ p ∈ l, 1 ≤ (p.2 : FileData).n_nodes) :
    (l.map (fun p => (p.2 : FileData).n_nodes)).sum
      = (l.map (fun p => (p.2 : FileData).n_nodes - 1)).sum + l.length := by
  induction l with
  | nil => simp
  | cons a rest ih =>
    simp only [List.map_cons, List.sum_cons, List.length_cons]
    have ha := h a (by simp)
    have hr := ih (fun p hp => h p (by simp [hp]))
    omega

/-- `toLeBytes` always produces exactly `w` bytes. -/
theorem toLeBytes_length (n w : Nat) : (toLeBytes n w).length = w := by
  induction w generalizing n with
  | zero => rfl
  | succ w ih => simp [toLeBytes, ih]

/-- Little-endian round trip: decoding the `w`-byte encoding of `n` gives
`n mod 256^w`. -/
theorem fromLeBytes_toLeBytes (w n : Nat) :
    fromLeBytes (toLeBytes n w) = n % 256 ^ w := by
  induction w generalizing n with
  | zero => simp [toLeBytes, fromLeBytes, Nat.mod_one]
  | succ w ih =>
    simp only [toLeBytes, fromLeBytes, ih, mkByte]
    rw [pow_succ, mul_comm (256 ^ w) 256, Nat.mod_mul]

/-- A decoded little-endian value is bounded by `256 ^ length`. -/
theorem fromLeBytes_lt (l : List Byte) : fromLeBytes l < 256 ^ l.length := by
  induction l with
  | nil => simp [fromLeBytes]
  | cons b rest ih =>
    simp only [fromLeBytes, List.length_cons, pow_succ]
    have hb := b.isLt
    have h2 : 256 * fromLeBytes rest ≤ 256 * (256 ^ rest.length - 1) :=
      Nat.mul_le_mul_left _ (by omega)
    have hp : 1 ≤ 256 ^ rest.length := Nat.one_le_pow _ _ (by omega)
    nlinarith

/-- Decoding any `k`-truncated byte list stays below `256 ^ k`. -/
theorem fromLeBytes_take_lt (l : List Byte) (k : Nat) :
    fromLeBytes (l.take k) < 256 ^ k := by
  refine lt_of_lt_of_le (fromLeBytes_lt _) (Nat.pow_le_pow_right (by omega) ?_)
  simp [List.length_take]

/-- `take` of an append at the exact length of the first part. -/
theorem take_append_len (l1 l2 : List Byte) (k : Nat) (h : l1.length = k) :
    (l1 ++ l2).take k = l1 := by
  subst h; exact List.take_left l1 l2

/-- `drop` of an append at the exact length of the first part. -/
theorem drop_append_len (l1 l2 : List Byte) (k : Nat) (h : l1.length = k) :
    (l1 ++ l2).drop k = l2 := by
  subst h; exact List.drop_left l1 l2

/-- An in-bounds `readExact` succeeds with the requested slice. -/
theorem readExact_eq_ok (file : List Byte) (pos len : Nat) (ctx : String)
    (h : pos + len ≤ file.length) :
    readExact file pos len ctx = .ok ((file.drop pos).take len) := by
  unfold readExact
  by_cases h0 : len = 0
  · subst h0; simp
  · rw [if_neg h0, if_pos h]

/-- Inversion of a successful `readExact`: the buffer is the requested
slice, has the requested length, and (unless empty) the range was within
the file. -/
theorem readExact_ok_inv (file : List Byte) (pos len : Nat) (ctx : String)
    (buf : List Byte) (h : readExact file pos len ctx = .ok buf) :
    buf = (file.drop pos).take len ∧ buf.length = len ∧
      (len = 0 ∨ pos + len ≤ file.length) := by
  unfold readExact at h
  by_cases h0 : len = 0
  · rw [if_pos h0] at h
    cases h
    subst h0
    simp
  · rw [if_neg h0] at h
    by_cases h1 : pos + len ≤ file.length
    · rw [if_pos h1] at h
      cases h
      refine ⟨rfl, ?_, .inr h1⟩
      simp [List.length_take, List.length_drop]
      omega
    · rw [if_neg h1] at h
      cases h

/-- The length of a `writeAll` result: the file grows exactly as far as the
write reaches past its end. -/
theorem writeAll_length (file : List Byte) (pos : Nat) (buf : List Byte) :
    (writeAll file pos buf).length = max file.length (pos + buf.length) := by
  simp [writeAll, List.length_take, List.length_drop]
  omega

/-- Reading back exactly the range just written (at a position inside or at
the end of the file) returns the written buffer. -/
theorem readExact_writeAll_eq (file : List Byte) (pos : Nat)
    (buf : List Byte) (ctx : String) (hpos : pos ≤ file.length) :
    readExact (writeAll file pos buf) pos buf.length ctx = .ok buf := by
  have hlen : (writeAll file pos buf).length = max file.length (pos + buf.length) :=
    writeAll_length file pos buf
  rw [readExact_eq_ok _ _ _ _ (by omega)]
  unfold writeAll
  rw [show pos - file.length = 0 by omega]
  simp only [List.replicate_zero, List.nil_append, List.append_nil,
    List.append_assoc]
  have htl : (file.take pos).length = pos := by
    simp [List.length_take]; omega
  rw [drop_append_len (file.take pos) _ pos htl]
  rw [take_append_len buf _ buf.length rfl]

/-- `node_to_buf` is a 40-byte record. -/
theorem node_to_buf_length (pp : Nat) (nd : NodeData) :
    (node_to_buf pp nd).length = NODE_LENGTH := by
  simp [node_to_buf, toLeBytes_length, NODE_LENGTH]

/-- The six field slices of a `node_to_buf` record. -/
theorem node_to_buf_slices (pp : Nat) (nd : NodeData) :
    (node_to_buf pp nd).take 8 = toLeBytes pp 8
    ∧ ((node_to_buf pp nd).drop 8).take 8 = toLeBytes nd.hits 8
    ∧ ((node_to_buf pp nd).drop 16).take 8 = toLeBytes nd.score 8
    ∧ ((node_to_buf pp nd).drop 24).take 8 = toLeBytes nd.first_child_pos 8
    ∧ ((node_to_buf pp nd).drop 32).take 4 = toLeBytes nd.n_children 4
    ∧ ((node_to_buf pp nd).drop 36).take 4 = toLeBytes nd.max_children 4 := by
  have l8 : ∀ n : Nat, (toLeBytes n 8).length = 8 := fun n => toLeBytes_length n 8
  have l4 : ∀ n : Nat, (toLeBytes n 4).length = 4 := fun n => toLeBytes_length n 4
  unfold node_to_buf
  simp only [List.append_assoc]
  have d8 : ∀ (n : Nat) (rest : List Byte),
      (toLeBytes n 8 ++ rest).drop 8 = rest := fun n rest =>
    drop_append_len _ _ _ (l8 n)
  have d4 : ∀ (n : Nat) (rest : List Byte),
      (toLeBytes n 4 ++ rest).drop 4 = rest := fun n rest =>
    drop_append_len _ _ _ (l4 n)
  refine ⟨take_append_len _ _ _ (l8 pp), ?_, ?_, ?_, ?_, ?_⟩
  · rw [d8, take_append_len _ _ _ (l8 nd.hits)]
  · rw [show (16 : Nat) = 8 + 8 by rfl, ← List.drop_drop, d8, d8,
      take_append_len _ _ _ (l8 nd.score)]
  · rw [show (24 : Nat) = 8 + (8 + 8) by rfl, ← List.drop_drop, ← List.drop_drop,
      d8, d8, d8, take_append_len _ _ _ (l8 nd.first_child_pos)]
  · rw [show (32 : Nat) = 8 + (8 + (8 + 8)) by rfl, ← List.drop_drop,
      ← List.drop_drop, ← List.drop_drop, d8, d8, d8, d8,
      take_append_len _ _ _ (l4 nd.n_children)]
  · rw [show (36 : Nat) = 8 + (8 + (8 + (8 + 4))) by rfl, ← List.drop_drop,
      ← List.drop_drop, ← List.drop_drop, ← List.drop_drop, d8, d8, d8, d8, d4,
      List.take_of_length_le (le_of_eq (l4 nd.max_children))]

/-- `get_node` on a successful record read decodes the six fields from the
buffer. -/
theorem get_node_eq_decode (fd : FileData) (pos : Nat) (buf : List Byte)
    (h : readExact fd.node_file pos NODE_LENGTH "while reading from node file"
      = .ok buf) :
    get_node fd pos = .ok
      { node_id := pos_to_node_id pos
        node_pos := pos
        parent := if fromLeBytes (buf.take 8) = u64MAX then none
                  else some (pos_to_node_id (fromLeBytes (buf.take 8)))
        hits := fromLeBytes ((buf.drop 8).take 8)
        score := fromLeBytes ((buf.drop 16).take 8)
        first_child_pos := fromLeBytes ((buf.drop 24).take 8)
        n_children := fromLeBytes ((buf.drop 32).take 4)
        max_children := fromLeBytes ((buf.drop 36).take 4) } := by
  unfold get_node
  rw [h]
  rfl

/-- Inversion of a successful `get_node`: the record's position fields and
the u64/u32 bounds every decoded field satisfies; the read was in bounds. -/
theorem get_node_ok_inv (fd : FileData) (pos : Nat) (nd : NodeData)
    (h : get_node fd pos = .ok nd) :
    nd.node_id = pos_to_node_id pos ∧ nd.node_pos = pos ∧
    nd.hits < 2 ^ 64 ∧ nd.score < 2 ^ 64 ∧ nd.first_child_pos < 2 ^ 64 ∧
    nd.n_children < 2 ^ 32 ∧ nd.max_children < 2 ^ 32 ∧
    (∀ p, nd.parent = some p → node_id_to_pos p < 2 ^ 64) ∧
    pos + NODE_LENGTH ≤ fd.node_file.length := by
  cases hr : readExact fd.node_file pos NODE_LENGTH
      "while reading from node file" with
  | error e =>
    unfold get_node at h
    rw [hr] at h
    exact Except.noConfusion h
  | ok buf =>
    rw [get_node_eq_decode fd pos buf hr] at h
    obtain ⟨hbuf, hlen, hrange⟩ := readExact_ok_inv _ _ _ _ _ hr
    have h40 : (NODE_LENGTH : Nat) ≠ 0 := by decide
    have hrange2 : pos + NODE_LENGTH ≤ fd.node_file.length := by
      rcases hrange with h0 | h1
      · exact absurd h0 h40
      · exact h1
    have e64 : (256 : Nat) ^ 8 = 2 ^ 64 := by norm_num
    have e32 : (256 : Nat) ^ 4 = 2 ^ 32 := by norm_num
    cases h
    refine ⟨rfl, rfl, ?_, ?_, ?_, ?_, ?_, ?_, hrange2⟩
    · exact e64 ▸ fromLeBytes_take_lt _ 8
    · exact e64 ▸ fromLeBytes_take_lt _ 8
    · exact e64 ▸ fromLeBytes_take_lt _ 8
    · exact e32 ▸ fromLeBytes_take_lt _ 4
    · exact e32 ▸ fromLeBytes_take_lt _ 4
    · intro p hp
      simp only at hp
      by_cases hu : fromLeBytes (buf.take 8) = u64MAX
      · rw [if_pos hu] at hp
        cases hp
      · rw [if_neg hu] at hp
        cases hp
        have hlt : fromLeBytes (buf.take 8) < 2 ^ 64 :=
          e64 ▸ fromLeBytes_take_lt _ 8
        have := Nat.div_mul_le_self (fromLeBytes (buf.take 8)) NODE_LENGTH
        unfold node_id_to_pos pos_to_node_id
        omega

/-- Rewriting a record in place and reading it back returns the same record
(with the id recomputed from the position), provided the record lies inside
the node file and its fields are in u64/u32 range. -/
theorem get_node_update_node (fd : FileData) (nd : NodeData)
    (hpos : nd.node_pos + NODE_LENGTH ≤ fd.node_file.length)
    (hh : nd.hits < 2 ^ 64) (hs : nd.score < 2 ^ 64)
    (hf : nd.first_child_pos < 2 ^ 64)
    (hn : nd.n_children < 2 ^ 32) (hm : nd.max_children < 2 ^ 32)
    (hpar : ∀ p, nd.parent = some p → node_id_to_pos p < 2 ^ 64) :
    get_node (update_node fd nd) nd.node_pos
      = .ok { nd with node_id := pos_to_node_id nd.node_pos } := by
  have e64 : (256 : Nat) ^ 8 = 2 ^ 64 := by norm_num
  have e32 : (256 : Nat) ^ 4 = 2 ^ 32 := by norm_num
  unfold update_node
  set pp := (match nd.parent with
    | some p => node_id_to_pos p
    | none => u64MAX) with hpp
  have hppb : pp < 2 ^ 64 := by
    rw [hpp]
    cases hpar2 : nd.parent with
    | none =>
      show u64MAX < 2 ^ 64
      unfold u64MAX; omega
    | some p =>
      show node_id_to_pos p < 2 ^ 64
      exact hpar p hpar2
  have hread := readExact_writeAll_eq fd.node_file nd.node_pos
    (node_to_buf pp nd) "while reading from node file" (by omega)
  rw [node_to_buf_length] at hread
  rw [get_node_eq_decode _ _ _ hread]
  obtain ⟨s1, s2, s3, s4, s5, s6⟩ := node_to_buf_slices pp nd
  rw [s1, s2, s3, s4, s5, s6]
  rw [fromLeBytes_toLeBytes, fromLeBytes_toLeBytes, fromLeBytes_toLeBytes,
    fromLeBytes_toLeBytes, fromLeBytes_toLeBytes, fromLeBytes_toLeBytes]
  rw [e64, e32]
  rw [Nat.mod_eq_of_lt hppb, Nat.mod_eq_of_lt hh, Nat.mod_eq_of_lt hs,
    Nat.mod_eq_of_lt hf, Nat.mod_eq_of_lt hn, Nat.mod_eq_of_lt hm]
  cases hpar2 : nd.parent with
  | none =>
    have hppe : pp = u64MAX := by rw [hpp, hpar2]
    rw [hppe, if_pos rfl, ← hpar2]
  | some p =>
    have hppv : pp = node_id_to_pos p := by rw [hpp, hpar2]
    have hne : pp ≠ u64MAX := by
      rw [hppv]
      intro hcontra
      have h1 : node_id_to_pos p % 40 = 0 := by
        unfold node_id_to_pos NODE_LENGTH
        exact Nat.mul_mod_left p 40
      have h2 : u64MAX % 40 = 15 := by decide
      rw [hcontra] at h1
      omega
    rw [if_neg hne, hppv]
    unfold pos_to_node_id node_id_to_pos
    rw [Nat.mul_div_cancel p (by decide : 0 < NODE_LENGTH), ← hpar2]

/-- `add_and_subtract` succeeds when a negative delta does not underflow,
returning the subtracted value or the wrapped sum. -/
theorem add_and_subtract_ok (value : Nat) (add : Int)
    (h : add < 0 → add.natAbs ≤ value) :
    add_and_subtract value add
      = .ok (if add < 0 then value - add.natAbs
             else (value + add.toNat) % 2 ^ 64) := by
  unfold add_and_subtract
  by_cases hneg : add < 0
  · rw [if_pos hneg, if_pos hneg, if_neg (by have := h hneg; omega)]
  · rw [if_neg hneg, if_neg hneg]

/-- `add_and_subtract` fails with the underflow `LogicError` when a negative
delta exceeds the value. -/
theorem add_and_subtract_underflow (value : Nat) (add : Int)
    (h : add < 0) (h2 : value < add.natAbs) :
    add_and_subtract value add
      = .error (.LogicError "Would subtract below zero on unsigned value (u64)") := by
  unfold add_and_subtract
  rw [if_pos h, if_pos (by omega)]

/-- C1: on a fresh sharded store with `max_top_shards = 2` and the splitter
`k -> k >> 8`, adding a child of the composite top with key `0x0A01 = 2561`
does NOT succeed with id 266: the lazily created shard is opened via
`TreeMap::new(path, 0, open_mode, Some(selector))`, so its local top node
gets `max_children = 0` and the insert is rejected with a `LogicError`
(contradicting the spec sentence and the repository test
`can_add_children`). -/
theorem add_child_on_fresh_sharded_store_returns_logic_error :
    (MultiFileTreeMap.add_child splitterHi .TruncateCreate sfsEmpty
        fresh_sharded_store MultiFileTreeMap.get_top 2561 100 1000 2).1
      = .error "LogicError: trying to add more children than allowed for parent" := by
  decide

/-- C2, counterexample: on a sharded store with one shard holding two nodes
(its local top plus one child), `len()` is 3, not the claimed
`1 + (shard.len() - 1) = 2`: the code sums full `shard.len()` values and so
also counts every shard's local top node. -/
theorem len_counts_shard_top_nodes :
    MultiFileTreeMap.len one_shard_store
      ≠ 1 + ((one_shard_store.trees.map
          (fun p => TreeMap.len p.2 - 1)).sum) := by
  decide

/-- C2, amended: `len()` returns `1 + Σ shard.len()`; equivalently, whenever
every shard holds at least its own top node, it returns
`1 + (Σ (shard.len() − 1)) + (number of shards)` — the composite top plus
every non-top node plus one extra count per shard for that shard's local
top node. -/
theorem len_eq_one_add_sum_shard_lens (m : MasterData)
    (h : ∀ p ∈ m.trees, 1 ≤ (p.2 : FileData).n_nodes) :
    MultiFileTreeMap.len m
      = 1 + (((m.trees.map (fun p => TreeMap.len p.2 - 1)).sum)
          + m.trees.length) := by
  have hs := sum_n_nodes_eq m.trees h
  simp only [MultiFileTreeMap.len, TreeMap.len] at *
  omega

/-- C2, witness: the amended length formula evaluated on the one-shard
store (shard 10 holds 2 nodes): `len = 1 + (1 + 1) = 3`. -/
theorem len_eq_one_add_sum_shard_lens_witness :
    MultiFileTreeMap.len one_shard_store
      = 1 + (((one_shard_store.trees.map
          (fun p => TreeMap.len p.2 - 1)).sum)
          + one_shard_store.trees.length) :=
  len_eq_one_add_sum_shard_lens one_shard_store (by decide)

/-- C3: `get_child` of the composite top whose dispatch targets a shard with
no files on disk (selector 15 here, while only shard 10 exists) does NOT
return "none": the `NonExistingFiles` failure of the lazy `MustExist` open
propagates to the caller (contradicting the spec sentence and the
repository test `can_get_none_for_get_child_with_no_file`). -/
theorem get_child_missing_shard_propagates_error :
    (MultiFileTreeMap.get_child splitterHi shard_sfs one_shard_store
        MultiFileTreeMap.get_top 3841).1
      = .error
        "NonExistingFiles: tried to open a non existing tree file in open mode MustExist" := by
  decide

/-- C4: `get_child_iter(0)` on a sharded store yields each shard's top-level
pairs with the RAW shard-local child ids: with one shard (selector 10)
holding child key `0x0A01` at local id 1, the iterator yields `(2561, 1)`
and not the composite `(2561, (1 << 8) | 10) = (2561, 266)` the claim
requires (contradicting the repository test `can_get_children`). -/
theorem top_child_iter_yields_shard_local_ids :
    ((MultiFileTreeMap.get_child_iter splitterHi shard_sfs one_shard_store
        MultiFileTreeMap.get_top).1).map Iter.yielded
      = .ok [(2561, 1)]
    ∧ (1 : NodeId) ≠ selector_node_from_node 1 10 := by
  constructor
  · decide
  · decide

/-- C5: `get_parent` of node 266 (local id 1 in shard 10, whose parent is
that shard's local top) returns the shard-local top record with its id
re-encoded to `(0 << 8) | 10 = 10` and the shard's zero counters — not the
synthesized composite top (id 0 with the master counters 50/500)
(contradicting the repository test `can_get_parent`). -/
theorem get_parent_at_shard_top_returns_local_record :
    ((MultiFileTreeMap.get_parent splitterHi shard_sfs one_shard_store 266).1).map
        (Option.map (fun nd => (nd.node_id, nd.hits, nd.score)))
      = .ok (some (10, 0, 0))
    ∧ ((MultiFileTreeMap.get_top_node_data one_shard_store).node_id,
       (MultiFileTreeMap.get_top_node_data one_shard_store).hits,
       (MultiFileTreeMap.get_top_node_data one_shard_store).score)
      = (0, 50, 500) := by
  constructor
  · decide
  · decide

/-- C8, counterexample: on a freshly created single-tree store (top has
`n_children = 0`, `max_children = 3`, empty map file), `get_child_iter(0)`
does not yield the empty sequence: the block read of `10 * max_children`
bytes fails on the empty map file and the `unwrap()` panics. -/
theorem get_child_iter_fresh_top_panics :
    TreeMap.get_child_iter fresh_tree TreeMap.get_top
      = .error (.FileIOError "while reading from map file") := by
  decide

/-- C9: `TreeMap::new` treats a store as existing only when BOTH files are
present: with exactly one file on disk, `OpenCreate` recreates both files
empty (the result is the same store `new` builds in an empty directory,
discarding the surviving file's contents), and `MustExist` fails with
`NonExistingFiles` whenever either file is missing. -/
theorem new_single_file_treated_as_non_existing (fs : TreeFS) (mx : Nat) :
    ((fs.node_file.isSome ↔ fs.map_file.isNone) →
      TreeMap.new fs mx .OpenCreate = TreeMap.new ⟨none, none⟩ mx .OpenCreate)
    ∧ (¬(fs.node_file.isSome ∧ fs.map_file.isSome) →
      TreeMap.new fs mx .MustExist = .error .NonExistingFiles) := by
  obtain ⟨nf, mf⟩ := fs
  cases nf <;> cases mf <;> simp [TreeMap.new]

/-- C9, witness: a directory holding only a node file (one stray byte):
`OpenCreate` rebuilds the fresh store, `MustExist` fails. -/
theorem new_single_file_treated_as_non_existing_witness :
    TreeMap.new ⟨some [mkByte 7], none⟩ 2 .OpenCreate
        = TreeMap.new ⟨none, none⟩ 2 .OpenCreate
    ∧ TreeMap.new ⟨some [mkByte 7], none⟩ 2 .MustExist
        = .error .NonExistingFiles :=
  ⟨(new_single_file_treated_as_non_existing ⟨some [mkByte 7], none⟩ 2).1
      (by decide),
   (new_single_file_treated_as_non_existing ⟨some [mkByte 7], none⟩ 2).2
      (by decide)⟩

/-- The `key_hit` scan of `get_children_maps` finds a hit whenever some
scanned entry carries the key (or the accumulator already holds one). -/
theorem foldl_key_hit_isSome (key : Nat) (entries : List ChildMap)
    (init : Option ChildMap)
    (h : (∃ c ∈ entries, ChildMap.key c = key) ∨ init.isSome = true) :
    (entries.foldl (fun acc c => if c.key = key then some c else acc)
        init).isSome = true := by
  induction entries generalizing init with
  | nil =>
    simp only [List.foldl_nil]
    rcases h with ⟨c, hc, _⟩ | h2
    · exact absurd hc (List.not_mem_nil c)
    · exact h2
  | cons c rest ih =>
    simp only [List.foldl_cons]
    apply ih
    rcases h with ⟨d, hd, hdk⟩ | h2
    · rcases List.mem_cons.mp hd with heq | hd2
      · subst heq
        right
        rw [if_pos hdk]
        rfl
      · exact Or.inl ⟨d, hd2, hdk⟩
    · right
      by_cases hk : c.key = key
      · rw [if_pos hk]
        rfl
      · rw [if_neg hk]
        exact h2

/-- A slice of a slice of the map file: reading `b` bytes at offset `a` of
the block buffer equals reading them directly from the file, when the range
lies inside the block. -/
theorem slice_of_take (F : List Byte) (first m a b : Nat) (h : a + b ≤ m) :
    (((F.drop first).take m).drop a).take b = (F.drop (first + a)).take b := by
  rw [List.drop_take, List.drop_drop, List.take_take,
    Nat.min_eq_left (by omega)]

/-- C7: `add_child` with a key already present among the parent's children
returns the duplicate-key `LogicError` and changes nothing: the state is
returned untouched, so `len()` and the parent's children meta are
unchanged and no node record is written. -/
theorem add_child_duplicate_key_rejected (fd : FileData) (node : NodeId)
    (key hits score max_children : Nat) (children_meta : ChildrenMeta)
    (buf : List Byte)
    (hpres : node < fd.n_nodes)
    (hmeta : get_node_child_meta fd (node_id_to_pos node) = .ok children_meta)
    (hbuf : readExact fd.map_file children_meta.first_child_pos
        (MAP_LENGTH * children_meta.max_children)
        "while reading from map file" = .ok buf)
    (hkey : key ∈ (decode_child_entries buf children_meta.n_children).map
        ChildMap.key) :
    TreeMap.add_child fd node key hits score max_children
      = (.error (.LogicError
          "key already present, would turn existing child node to a ghost node"),
         fd)
    ∧ TreeMap.len (TreeMap.add_child fd node key hits score max_children).2
        = TreeMap.len fd
    ∧ get_node_child_meta
        (TreeMap.add_child fd node key hits score max_children).2
        (node_id_to_pos node) = .ok children_meta := by
  have hn0 : ¬children_meta.n_children = 0 := by
    intro h0
    rw [h0] at hkey
    simp [decode_child_entries] at hkey
  have hcp : check_presence fd node = .ok () := by
    unfold check_presence
    rw [if_neg (Nat.not_le.mpr hpres)]
  have hexists : ∃ c ∈ decode_child_entries buf children_meta.n_children,
      ChildMap.key c = key := by
    rcases List.mem_map.mp hkey with ⟨c, hc, hck⟩
    exact ⟨c, hc, hck⟩
  have hsome := foldl_key_hit_isSome key
    (decode_child_entries buf children_meta.n_children) none (Or.inl hexists)
  have hmaps : get_children_maps fd key children_meta = .ok
      { key_hit := (decode_child_entries buf children_meta.n_children).foldl
          (fun acc c => if c.key = key then some c else acc) none
        child_maps := decode_child_entries buf children_meta.n_children } := by
    unfold get_children_maps
    rw [hbuf]
    rfl
  have hucc : update_children_child_mappings fd (node_id_to_pos node) key
      (expected_node_pos fd) children_meta
      = .error (.LogicError
          "key already present, would turn existing child node to a ghost node") := by
    unfold update_children_child_mappings
    rw [hmaps]
    show (if ((decode_child_entries buf children_meta.n_children).foldl
        (fun acc c => if c.key = key then some c else acc) none).isSome
        = true then _ else _) = _
    rw [if_pos hsome]
  have hstep : TreeMap.add_child fd node key hits score max_children
      = (.error (.LogicError
          "key already present, would turn existing child node to a ghost node"),
         fd) := by
    simp only [TreeMap.add_child, hcp, hmeta]
    rw [if_neg hn0, hucc]
  exact ⟨hstep, by rw [hstep], by rw [hstep]; exact hmeta⟩

/-- C7, witness: on the concrete store `shard_fd` (the top already has a
child with key 2561), adding key 2561 again is rejected and the state is
returned unchanged. -/
theorem add_child_duplicate_key_rejected_witness :
    TreeMap.add_child shard_fd 0 2561 7 8 2
      = (.error (.LogicError
          "key already present, would turn existing child node to a ghost node"),
         shard_fd)
    ∧ TreeMap.len (TreeMap.add_child shard_fd 0 2561 7 8 2).2
        = TreeMap.len shard_fd
    ∧ get_node_child_meta (TreeMap.add_child shard_fd 0 2561 7 8 2).2
        (node_id_to_pos 0) = .ok shard_top_meta :=
  add_child_duplicate_key_rejected shard_fd 0 2561 7 8 2 shard_top_meta
    shard_fd.map_file (by decide) (by decide) (by decide) (by decide)

/-- C8 (amended): `get_child_iter` on an absent node id yields the empty
sequence; on a present node whose map-block range lies inside the map file
it returns, without failing, exactly the node's first `n_children`
`(key, pos/40)` pairs (each entry exactly once).  The in-bounds proviso is
necessary: on a freshly created store's top node the block read fails and
the `unwrap()` panics (see the counterexample). -/
theorem get_child_iter_yields_each_child_once (fd : FileData) (node : NodeId) :
    (fd.n_nodes ≤ node → TreeMap.get_child_iter fd node = .ok { key_vals := [] })
    ∧ (∀ children_meta : ChildrenMeta,
        node < fd.n_nodes →
        get_node_child_meta fd (node_id_to_pos node) = .ok children_meta →
        children_meta.n_children ≤ children_meta.max_children →
        children_meta.first_child_pos + MAP_LENGTH * children_meta.max_children
            ≤ fd.map_file.length →
        TreeMap.get_child_iter fd node
          = .ok { key_vals := child_pairs_spec fd children_meta }) := by
  constructor
  · intro h
    unfold TreeMap.get_child_iter check_presence
    rw [if_pos (show node ≥ fd.n_nodes from h)]
  · intro meta hlt hmeta hnm hrange
    have hcp : check_presence fd node = .ok () := by
      unfold check_presence
      rw [if_neg (Nat.not_le.mpr hlt)]
    have hread := readExact_eq_ok fd.map_file meta.first_child_pos
      (MAP_LENGTH * meta.max_children) "while reading from map file" hrange
    have hvec : get_children_vec fd meta = .ok (child_pairs_spec fd meta) := by
      unfold get_children_vec
      rw [hread]
      show Except.ok _ = _
      apply congrArg
      unfold child_pairs_spec
      apply List.map_congr_left
      intro i hi
      have hi2 : i < meta.n_children := List.mem_range.mp hi
      have hin : MAP_LENGTH * i + 8 + 2 ≤ MAP_LENGTH * meta.max_children := by
        have : i + 1 ≤ meta.max_children := by omega
        calc MAP_LENGTH * i + 8 + 2 = MAP_LENGTH * (i + 1) := by
              simp only [MAP_LENGTH]; omega
          _ ≤ MAP_LENGTH * meta.max_children :=
              Nat.mul_le_mul_left _ this
      unfold decode_child_entry pos_to_node_id
      rw [slice_of_take _ _ _ _ _ (by omega : MAP_LENGTH * i + 8
          ≤ MAP_LENGTH * meta.max_children)]
      rw [slice_of_take _ _ _ _ _ hin, ← Nat.add_assoc]
    have hfin : (do
        let key_vals ← get_children_vec fd meta
        Except.ok { key_vals := key_vals } : Except TreeFileError Iter)
        = .ok { key_vals := child_pairs_spec fd meta } := by
      rw [hvec]
      rfl
    simp only [TreeMap.get_child_iter, hcp, hmeta]
    exact hfin

/-- C8, witness: on the concrete store `shard_fd`, iterating the top node
(meta `(0, 1, 2)`, block inside the 20-byte map file) yields exactly the
single pair `(2561, 1)`. -/
theorem get_child_iter_yields_each_child_once_witness :
    TreeMap.get_child_iter shard_fd 0
      = .ok { key_vals := child_pairs_spec shard_fd shard_top_meta }
    ∧ child_pairs_spec shard_fd shard_top_meta = [(2561, 1)] :=
  ⟨(get_child_iter_yields_each_child_once shard_fd 0).2 shard_top_meta
    (by decide) (by decide) (by decide) (by decide), by decide⟩

/-- C6 (amended): for a present node, when neither counter underflows AND
neither u64 addition overflows, `update_node_add` succeeds and the
re-read record's counters have changed by exactly the deltas; when the
hits delta underflows, or the hits delta is applicable but the score delta
underflows, the call returns the underflow `LogicError` and the state is
unchanged.  (The original claim omitted the no-overflow proviso: u64
addition wraps modulo 2^64, see the counterexample.) -/
theorem update_node_add_exact_or_underflow (fd : FileData) (node : NodeId)
    (dh ds : Int) (nd : NodeData)
    (hnd : TreeMap.get_node fd node = .ok nd) :
    (((dh < 0 → dh.natAbs ≤ nd.hits) ∧ (0 ≤ dh → nd.hits + dh.toNat < 2 ^ 64) ∧
      (ds < 0 → ds.natAbs ≤ nd.score) ∧ (0 ≤ ds → nd.score + ds.toNat < 2 ^ 64)) →
      (TreeMap.update_node_add fd node dh ds).1 = .ok ()
      ∧ TreeMap.get_node (TreeMap.update_node_add fd node dh ds).2 node
          = .ok { nd with
              hits := if dh < 0 then nd.hits - dh.natAbs
                      else (nd.hits + dh.toNat) % 2 ^ 64
              score := if ds < 0 then nd.score - ds.natAbs
                       else (nd.score + ds.toNat) % 2 ^ 64 }
      ∧ (((if dh < 0 then nd.hits - dh.natAbs
           else (nd.hits + dh.toNat) % 2 ^ 64 : Nat) : Int)
            = (nd.hits : Int) + dh)
      ∧ (((if ds < 0 then nd.score - ds.natAbs
           else (nd.score + ds.toNat) % 2 ^ 64 : Nat) : Int)
            = (nd.score : Int) + ds))
    ∧ (((dh < 0 ∧ nd.hits < dh.natAbs) ∨
        ((dh < 0 → dh.natAbs ≤ nd.hits) ∧ ds < 0 ∧ nd.score < ds.natAbs)) →
      TreeMap.update_node_add fd node dh ds
        = (.error (.LogicError "Would subtract below zero on unsigned value (u64)"),
           fd)) := by
  have hp : ¬node ≥ fd.n_nodes := by
    intro hge
    unfold TreeMap.get_node check_presence at hnd
    rw [if_pos hge] at hnd
    exact Except.noConfusion hnd
  have hcp : check_presence fd node = .ok () := by
    unfold check_presence
    rw [if_neg hp]
  have hget : get_node fd (node_id_to_pos node) = .ok nd := by
    unfold TreeMap.get_node at hnd
    rw [hcp] at hnd
    exact hnd
  obtain ⟨hid, hposn, hhb, hsb, hfb, hnb, hmb, hparb, hrange⟩ :=
    get_node_ok_inv _ _ _ hget
  constructor
  · rintro ⟨h1, h2, h3, h4⟩
    have hA : add_and_subtract nd.hits dh
        = .ok (if dh < 0 then nd.hits - dh.natAbs
               else (nd.hits + dh.toNat) % 2 ^ 64) :=
      add_and_subtract_ok _ _ h1
    have hB : add_and_subtract nd.score ds
        = .ok (if ds < 0 then nd.score - ds.natAbs
               else (nd.score + ds.toNat) % 2 ^ 64) :=
      add_and_subtract_ok _ _ h3
    set H := if dh < 0 then nd.hits - dh.natAbs
             else (nd.hits + dh.toNat) % 2 ^ 64 with hHdef
    set S := if ds < 0 then nd.score - ds.natAbs
             else (nd.score + ds.toNat) % 2 ^ 64 with hSdef
    have hupd : TreeMap.update_node_add fd node dh ds
        = (.ok (), update_node fd { nd with hits := H, score := S }) := by
      simp only [TreeMap.update_node_add, hcp, hget, hA, hB]
    have hHlt : H < 2 ^ 64 := by
      rw [hHdef]
      split
      · omega
      · exact Nat.mod_lt _ (by norm_num)
    have hSlt : S < 2 ^ 64 := by
      rw [hSdef]
      split
      · omega
      · exact Nat.mod_lt _ (by norm_num)
    have hidr : pos_to_node_id nd.node_pos = nd.node_id := by
      rw [hposn, ← hid]
    have hg2 := get_node_update_node fd { nd with hits := H, score := S }
      (by
        have hx : ({ nd with hits := H, score := S } : NodeData).node_pos
            = node_id_to_pos node := hposn
        omega)
      hHlt hSlt hfb hnb hmb hparb
    rw [show ({ nd with hits := H, score := S } : NodeData).node_pos
        = nd.node_pos from rfl] at hg2
    rw [hidr] at hg2
    refine ⟨by rw [hupd], ?_, ?_, ?_⟩
    · rw [hupd]
      unfold TreeMap.get_node
      have hcp2 : check_presence
          (update_node fd { nd with hits := H, score := S }) node = .ok () := by
        unfold check_presence update_node
        rw [if_neg hp]
      rw [hcp2]
      show get_node (update_node fd { nd with hits := H, score := S })
          (node_id_to_pos node) = _
      rw [← hposn, hg2]
    · rw [hHdef]
      by_cases hneg : dh < 0
      · rw [if_pos hneg]
        have := h1 hneg
        omega
      · rw [if_neg hneg]
        have h2b := h2 (by omega)
        rw [Nat.mod_eq_of_lt h2b]
        omega
    · rw [hSdef]
      by_cases hneg : ds < 0
      · rw [if_pos hneg]
        have := h3 hneg
        omega
      · rw [if_neg hneg]
        have h4b := h4 (by omega)
        rw [Nat.mod_eq_of_lt h4b]
        omega
  · rintro (⟨hneg, hlt⟩ | ⟨hok, hneg, hlt⟩)
    · have hA := add_and_subtract_underflow nd.hits dh hneg hlt
      simp only [TreeMap.update_node_add, hcp, hget, hA]
    · have hA := add_and_subtract_ok nd.hits dh hok
      have hB := add_and_subtract_underflow nd.score ds hneg hlt
      simp only [TreeMap.update_node_add, hcp, hget, hA, hB]

/-- C6, witness: on the concrete store `shard_fd` (node 1 holds 100/1000),
`update_node_add(1, +30, -250)` succeeds and the record re-reads as
130/750; `update_node_add(1, +30, -2000)` underflows the score, returns the
`LogicError` and leaves the state unchanged. -/
theorem update_node_add_exact_or_underflow_witness :
    (TreeMap.update_node_add shard_fd 1 30 (-250)).1 = .ok ()
    ∧ TreeMap.get_node (TreeMap.update_node_add shard_fd 1 30 (-250)).2 1
        = .ok { node_id := 1, node_pos := 40, parent := some 0, hits := 130,
                score := 750, first_child_pos := 0, n_children := 0,
                max_children := 2 }
    ∧ TreeMap.update_node_add shard_fd 1 30 (-2000)
        = (.error (.LogicError "Would subtract below zero on unsigned value (u64)"),
           shard_fd) := by
  have h := (update_node_add_exact_or_underflow shard_fd 1 30 (-250)
    { node_id := 1, node_pos := 40, parent := some 0, hits := 100,
      score := 1000, first_child_pos := 0, n_children := 0, max_children := 2 }
    (by decide)).1 (by decide)
  have h2 := (update_node_add_exact_or_underflow shard_fd 1 30 (-2000)
    { node_id := 1, node_pos := 40, parent := some 0, hits := 100,
      score := 1000, first_child_pos := 0, n_children := 0, max_children := 2 }
    (by decide)).2 (by decide)
  refine ⟨h.1, ?_, h2⟩
  rw [h.2.1]
  decide

/-- C6, counterexample to the original claim: node 1 of `max_hits_tree` has
`hits = 2^64 - 1`; `update_node_add(1, +1, 0)` has no underflowing
counter, succeeds, and afterwards `hits` is 0 — the counter wrapped
instead of changing by exactly +1. -/
theorem update_node_add_overflow_wraps :
    (TreeMap.get_node max_hits_tree 1).map NodeData.hits = .ok (2 ^ 64 - 1)
    ∧ (TreeMap.update_node_add max_hits_tree 1 1 0).1 = .ok ()
    ∧ (TreeMap.get_node (TreeMap.update_node_add max_hits_tree 1 1 0).2 1).map
        NodeData.hits = .ok 0 := by
  exact ⟨by decide, by decide, by decide⟩

/-- C10: `add_and_subtract` with a non-negative delta never returns an
error: it performs the unchecked u64 addition, so the result is
`(value + delta) mod 2^64` (wrapping rather than reporting a LogicError). -/
theorem add_and_subtract_nonneg_wraps (value : Nat) (add : Int)
    (h : 0 ≤ add) :
    add_and_subtract value add = .ok ((value + add.toNat) % 2 ^ 64) := by
  unfold add_and_subtract
  rw [if_neg (by omega)]

/-- C10, witness: at the wrap point `value = 2^64 - 1, delta = 1` the call
succeeds and the stored counter becomes 0. -/
theorem add_and_subtract_nonneg_wraps_witness :
    add_and_subtract (2 ^ 64 - 1) 1 = .ok 0 := by
  rw [add_and_subtract_nonneg_wraps (2 ^ 64 - 1) 1 (by norm_num)]
  decide

end RustTreeMap
